import Mathlib

/-!
# Verification of the inexact Newton-CG core of `cvips_labs`

The repository's notebooks drive `unconstrainedMinimization.InexactNewtonCG`,
a globalized inexact Newton method with truncated Conjugate Gradient and an
Armijo backtracking line search.  The module `unconstrainedMinimization.py`
itself is not part of the checked sources (only its callers are), so the
solver core below is modelled from the specification, section by section.
Rational numbers stand in for the Python floats; all tolerance comparisons
are stated on squared norms, which is equivalent to the spec's comparisons on
norms because tolerances are validated to be non-negative at solve start.
The `solveBVP` helper of `02_IntroToFenics/ConvergenceRates.ipynb` is embedded
at the end, with the external finite-element assembly abstracted as quadrature
data.
-/

/-- Vectors of unknowns: maps from degree-of-freedom index to a scalar. -/
abbrev Vec (n : ℕ) := Fin n → ℚ

/-- Standard dot product, the default inner product of the spec (§4.2). -/
def dot {n : ℕ} (u v : Vec n) : ℚ := ∑ i, u i * v i

/-- Squared Euclidean norm. -/
def normSq {n : ℕ} (v : Vec n) : ℚ := dot v v

/-- Modelled from the spec: termination status of the Truncated CG Solver
(§4.1 of the spec; the implementation `unconstrainedMinimization.py` is not
in the checked sources).  `negCurvature` is an expected, explicitly handled
outcome, not an error (§7). -/
inductive CGStatus where
  | converged
  | truncated
  | negCurvature
  deriving DecidableEq, Repr

/-- Result of the Truncated CG Solver: a direction and a status. -/
structure CGResult (n : ℕ) where
  dir : Vec n
  status : CGStatus

/-- Modelled from the spec: inner loop of preconditioned Conjugate Gradient on
the Newton system (§4.1; `unconstrainedMinimization.py` is missing from the
sources).  State: accumulated direction `x`, residual `r`, search direction
`p`, and the scalar `rz = ⟨r, M r⟩`.  The first argument is the remaining
inner-iteration budget; `iter` counts the completed iterations.  At each step
the curvature `pHp = p · H(p)` is tested: non-positive curvature on the very
first iteration returns the (preconditioned) steepest-descent direction `p`,
and after at least one successful step it returns the direction accumulated
so far.  The residual test is on squared norms. -/
def cgLoop {n : ℕ} (H M : Vec n → Vec n) (tolSq : ℚ) :
    ℕ → ℕ → Vec n → Vec n → Vec n → ℚ → CGResult n
  | 0, _iter, x, _r, _p, _rz => ⟨x, CGStatus.truncated⟩
  | fuel + 1, iter, x, r, p, rz =>
    if dot p (H p) ≤ 0 then
      if iter = 0 then ⟨p, CGStatus.negCurvature⟩ else ⟨x, CGStatus.negCurvature⟩
    else
      let alpha := rz / dot p (H p)
      let x' := x + alpha • p
      let r' := r - alpha • H p
      if normSq r' < tolSq then ⟨x', CGStatus.converged⟩
      else
        let z' := M r'
        cgLoop H M tolSq fuel (iter + 1) x' r' (z' + (dot r' z' / rz) • p) (dot r' z')

/-- Modelled from the spec: the Truncated CG Solver (§4.1).  Solves
`H dx = b` (with `b = -g`) approximately from the zero initial guess, with
preconditioner `M`, squared residual tolerance `tolSq` and inner-iteration
cap `maxiter`. -/
def truncatedCG {n : ℕ} (H M : Vec n → Vec n) (b : Vec n) (tolSq : ℚ)
    (maxiter : ℕ) : CGResult n :=
  cgLoop H M tolSq maxiter 0 0 b (M b) (dot b (M b))

/-- Modelled from the spec: terminal states of the Driver state machine
(§4.2).  All are result values reported through the result channel, never
exceptions. -/
inductive TermStatus where
  | converged
  | maxIterationsReached
  | lineSearchFailed
  | negligibleDescent
  deriving DecidableEq, Repr

/-- Modelled from the spec: the Objective Adapter capability interface (§6):
gradient, Hessian-vector product at an iterate, scalar energy, and an
optional preconditioner (defaulting to the identity). -/
structure Objective (n : ℕ) where
  energy : Vec n → ℚ
  gradient : Vec n → Vec n
  hessApply : Vec n → Vec n → Vec n
  precond : Vec n → Vec n := fun v => v

/-- Modelled from the spec: the Driver configuration (§6), the parameters
dictionary of `unconstrainedMinimization.InexactNewtonCG` seen at
`src/unnamed/part_000`.  `cg_forcing` is the tunable forcing-sequence policy
(§9) mapping the squared gradient norm to the inner CG squared residual
tolerance, and `cg_max_iter` is the inner-iteration cap. -/
structure Config where
  rel_tolerance : ℚ
  abs_tolerance : ℚ
  gdu_tolerance : ℚ
  max_iter : ℕ
  c_armijo : ℚ
  max_backtracking_iter : ℕ
  cg_max_iter : ℕ
  cg_forcing : ℚ → ℚ

/-- Modelled from the spec: the dual convergence criterion of §4.2 step 2,
`‖g‖ < abs_tolerance ∨ ‖g‖/‖g0‖ < rel_tolerance`, stated on squared norms
(equivalent for the validated non-negative tolerances of §7). -/
def convCrit (cfg : Config) (gnsq g0sq : ℚ) : Prop :=
  gnsq < cfg.abs_tolerance ^ 2 ∨ gnsq < cfg.rel_tolerance ^ 2 * g0sq

instance (cfg : Config) (gnsq g0sq : ℚ) : Decidable (convCrit cfg gnsq g0sq) := by
  unfold convCrit
  infer_instance

/-- The Armijo sufficient-decrease test of §4.2 step 6 at step length `alpha`. -/
def armijoTest {n : ℕ} (E : Vec n → ℚ) (x dx : Vec n) (Ek gdu c alpha : ℚ) : Prop :=
  E (x + alpha • dx) ≤ Ek + c * (alpha * gdu)

instance {n : ℕ} (E : Vec n → ℚ) (x dx : Vec n) (Ek gdu c alpha : ℚ) :
    Decidable (armijoTest E x dx Ek gdu c alpha) := by
  unfold armijoTest
  infer_instance

/-- Modelled from the spec: Armijo backtracking line search (§4.2 step 6).
Tests step lengths `alpha, alpha/2, alpha/4, ...` for at most the given
number of attempts; returns the first accepted step length together with the
energy at the accepted point, or `none` if every attempt fails. -/
def armijoSearch {n : ℕ} (E : Vec n → ℚ) (x dx : Vec n) (Ek gdu c : ℚ) :
    ℕ → ℚ → Option (ℚ × ℚ)
  | 0, _alpha => none
  | fuel + 1, alpha =>
    if E (x + alpha • dx) ≤ Ek + c * (alpha * gdu) then some (alpha, E (x + alpha • dx))
    else armijoSearch E x dx Ek gdu c fuel (alpha / 2)

/-- Result of a Driver solve: final iterate, terminal status, outer
iterations consumed, gradient evaluations performed, final squared gradient
norm, and the per-outer-iteration history (squared gradient norms, energy
values, and the directional derivatives of the accepted steps), as in §3 and
§6 of the spec. -/
structure NewtonResult (n : ℕ) where
  x : Vec n
  status : TermStatus
  iters : ℕ
  gradEvals : ℕ
  finalGradNormSq : ℚ
  gradNorms : List ℚ
  energies : List ℚ
  gdus : List ℚ

/-- Prepend one outer-iteration history record (taken at the start of an
accepted outer iteration) to a result produced further down the loop. -/
def addRecord {n : ℕ} (gnsq Ek gdu : ℚ) (r : NewtonResult n) : NewtonResult n :=
  { r with gradNorms := gnsq :: r.gradNorms, energies := Ek :: r.energies,
           gdus := gdu :: r.gdus }

/-- The search direction the Driver obtains from the Truncated CG Solver at
iterate `x` with gradient `g` (§4.2 step 4): right-hand side `-g`, Hessian
and preconditioner from the Objective Adapter, forcing tolerance from the
configured policy. -/
def cgDir {n : ℕ} (obj : Objective n) (cfg : Config) (x g : Vec n) : Vec n :=
  (truncatedCG (obj.hessApply x) obj.precond (-g) (cfg.cg_forcing (normSq g))
    cfg.cg_max_iter).dir

/-- Modelled from the spec: one outer pass of the Inexact Newton-CG Driver
(§4.2).  The first `ℕ` argument is the remaining outer-iteration budget
(initially `max_iter`), `k` the number of accepted outer iterations so far,
`g` the gradient at `x` (evaluated once per pass), `evals` the running count
of gradient evaluations.  Order of checks per pass: convergence (before any
new step, so iteration 0 can terminate immediately), iteration cap, CG
direction and negligible-descent guard, Armijo line search, iterate update. -/
def newtonLoop {n : ℕ} (obj : Objective n) (cfg : Config) (g0sq : ℚ) :
    ℕ → ℕ → Vec n → Vec n → ℕ → NewtonResult n
  | 0, k, x, g, evals =>
    if convCrit cfg (normSq g) g0sq then
      ⟨x, TermStatus.converged, k, evals, normSq g, [normSq g], [obj.energy x], []⟩
    else
      ⟨x, TermStatus.maxIterationsReached, k, evals, normSq g, [normSq g], [obj.energy x], []⟩
  | fuel + 1, k, x, g, evals =>
    if convCrit cfg (normSq g) g0sq then
      ⟨x, TermStatus.converged, k, evals, normSq g, [normSq g], [obj.energy x], []⟩
    else if |dot g (cgDir obj cfg x g)| < cfg.gdu_tolerance then
      ⟨x, TermStatus.negligibleDescent, k, evals, normSq g, [normSq g], [obj.energy x], []⟩
    else
      match armijoSearch obj.energy x (cgDir obj cfg x g) (obj.energy x)
          (dot g (cgDir obj cfg x g)) cfg.c_armijo cfg.max_backtracking_iter 1 with
      | none =>
        ⟨x, TermStatus.lineSearchFailed, k, evals, normSq g, [normSq g], [obj.energy x], []⟩
      | some (alpha, _e) =>
        addRecord (normSq g) (obj.energy x) (dot g (cgDir obj cfg x g))
          (newtonLoop obj cfg g0sq fuel (k + 1) (x + alpha • cgDir obj cfg x g)
            (obj.gradient (x + alpha • cgDir obj cfg x g)) (evals + 1))

/-- Modelled from the spec: the Driver's solve entry point.  `g0` is the
gradient at the very first iteration; its squared norm anchors the relative
tolerance check for the whole solve. -/
def solve {n : ℕ} (obj : Objective n) (cfg : Config) (x0 : Vec n) : NewtonResult n :=
  newtonLoop obj cfg (normSq (obj.gradient x0)) cfg.max_iter 0 x0 (obj.gradient x0) 1

/-- Matrix-vector product for an explicit square matrix of rationals. -/
def mulVec {n : ℕ} (H : Fin n → Fin n → ℚ) (v : Vec n) : Vec n :=
  fun i => ∑ j, H i j * v j

/-- Gradient of the convex quadratic energy `½ xᵀHx - bᵀx`. -/
def quadGrad {n : ℕ} (H : Fin n → Fin n → ℚ) (b : Vec n) (x : Vec n) : Vec n :=
  mulVec H x - b

/-- The convex quadratic energy `½ xᵀHx - bᵀx` of spec §8. -/
def quadEnergy {n : ℕ} (H : Fin n → Fin n → ℚ) (b : Vec n) (x : Vec n) : ℚ :=
  dot x (mulVec H x) / 2 - dot b x

/-- The quadratic test objective: energy `½ xᵀHx - bᵀx`, its gradient
`Hx - b`, constant Hessian `H`, identity preconditioner. -/
def quadObjective {n : ℕ} (H : Fin n → Fin n → ℚ) (b : Vec n) : Objective n where
  energy := quadEnergy H b
  gradient := quadGrad H b
  hessApply := fun _x v => mulVec H v
  precond := fun v => v

/-- The diagonal matrix `diag(1, 100)` of the spec's concrete scenario. -/
def Hdiag : Fin 2 → Fin 2 → ℚ := ![![1, 0], ![0, 100]]

/-- The starting point `(10, 10)` of the spec's concrete scenario. -/
def x05 : Vec 2 := ![10, 10]

/-- Configuration for the concrete quadratic scenario of spec §8:
`abs_tolerance = 1e-9`, `rel_tolerance = 1e-9`, inner CG run to full
convergence (cap 5, tight forcing tolerance). -/
def cfg5 : Config where
  rel_tolerance := 1 / 1000000000
  abs_tolerance := 1 / 1000000000
  gdu_tolerance := 0
  max_iter := 100
  c_armijo := 1 / 10000
  max_backtracking_iter := 10
  cg_max_iter := 5
  cg_forcing := fun _ => 1 / 10 ^ 18

/-- The diagonal matrix `diag(1, 4)` used for the round-trip scenario. -/
def Hd4 : Fin 2 → Fin 2 → ℚ := ![![1, 0], ![0, 4]]

/-- Configuration with only the relative tolerance active and the inner CG
truncated after a single iteration. -/
def cfg9 : Config where
  rel_tolerance := 1 / 2
  abs_tolerance := 0
  gdu_tolerance := 0
  max_iter := 10
  c_armijo := 1 / 10000
  max_backtracking_iter := 10
  cg_max_iter := 1
  cg_forcing := fun _ => 0

/-- Configuration with both gradient tolerances off, a single outer
iteration, and the inner CG truncated after a single iteration. -/
def cfg7 : Config where
  rel_tolerance := 0
  abs_tolerance := 0
  gdu_tolerance := 0
  max_iter := 1
  c_armijo := 1 / 10000
  max_backtracking_iter := 10
  cg_max_iter := 1
  cg_forcing := fun _ => 0

/-- Modelled abstraction of the external quadrature performed by the
finite-element library in `solveBVP`: a list of (weight, pointwise value)
pairs for the scalar integrand `uh - u_ex`, and (weight, gradient components)
triples for the vector integrand `grad uh - grad u_ex`
(`02_IntroToFenics/ConvergenceRates.ipynb`, cell `solveBVP`). -/
structure QuadratureData where
  l2vals : List (ℝ × ℝ)
  envals : List (ℝ × ℝ × ℝ)

/-- The notebook's `dl.assemble((uh-u_ex)**2*ufl.dx)`: quadrature sum of the
squared scalar integrand. -/
def assembleSq (q : List (ℝ × ℝ)) : ℝ :=
  (q.map fun p => p.1 * p.2 ^ 2).sum

/-- The notebook's
`dl.assemble(ufl.inner(ufl.grad(uh) - grad_u_ex, ufl.grad(uh) - grad_u_ex)*ufl.dx)`:
quadrature sum of the squared norm of the vector integrand. -/
def assembleEnergySq (q : List (ℝ × ℝ × ℝ)) : ℝ :=
  (q.map fun p => p.1 * (p.2.1 ^ 2 + p.2.2 ^ 2)).sum

/-- Embedding of `solveBVP(n, degree)` from
`02_IntroToFenics/ConvergenceRates.ipynb`: mesh construction, assembly and
the linear solve are delegated to the external library (abstracted as the
`fem` quadrature data for the solved discrete solution at the given `n` and
`degree`); the function then returns
`(np.sqrt(assemble((uh-u_ex)**2*dx)), np.sqrt(assemble(inner(grad uh - grad_u_ex, grad uh - grad_u_ex)*dx)))`. -/
noncomputable def solveBVP (fem : ℕ → ℕ → QuadratureData) (n degree : ℕ) : ℝ × ℝ :=
  (Real.sqrt (assembleSq (fem n degree).l2vals),
   Real.sqrt (assembleEnergySq (fem n degree).envals))

/-- One-dimensional identity Hessian for small witnesses. -/
def H1 : Fin 1 → Fin 1 → ℚ := ![![1]]

/-- One-dimensional witness starting point. -/
def x01 : Vec 1 := ![1]

/-- The starting point of the gradient-norm counterexample run. -/
def x07 : Vec 2 := ![10, 1 / 100]

/-- The starting point of the round-trip counterexample run. -/
def x09 : Vec 2 := ![1, 1]

/-- Configuration with no backtracking attempts allowed
(`max_backtracking_iter = 0`) and both gradient tolerances off. -/
def cfgB : Config where
  rel_tolerance := 0
  abs_tolerance := 0
  gdu_tolerance := 0
  max_iter := 5
  c_armijo := 1 / 2
  max_backtracking_iter := 0
  cg_max_iter := 2
  cg_forcing := fun _ => 1 / 100

/-- Configuration with an Armijo constant so large that every backtracking
attempt fails on the one-dimensional quadratic witness. -/
def cfgC : Config where
  rel_tolerance := 0
  abs_tolerance := 0
  gdu_tolerance := 0
  max_iter := 5
  c_armijo := 2
  max_backtracking_iter := 3
  cg_max_iter := 2
  cg_forcing := fun _ => 1 / 100

/-- Configuration with a large directional-derivative tolerance, triggering
the negligible-descent early exit. -/
def cfgN : Config where
  rel_tolerance := 0
  abs_tolerance := 0
  gdu_tolerance := 10
  max_iter := 5
  c_armijo := 1 / 2
  max_backtracking_iter := 3
  cg_max_iter := 2
  cg_forcing := fun _ => 1 / 100

/-- Small configuration that accepts one full Newton step on the
one-dimensional quadratic witness and then converges. -/
def cfgE : Config where
  rel_tolerance := 0
  abs_tolerance := 1 / 2
  gdu_tolerance := 0
  max_iter := 3
  c_armijo := 1 / 10
  max_backtracking_iter := 3
  cg_max_iter := 2
  cg_forcing := fun _ => 1 / 100

/-- Configuration with a unit absolute tolerance, for already-stationary
starting points. -/
def cfgW : Config where
  rel_tolerance := 0
  abs_tolerance := 1
  gdu_tolerance := 0
  max_iter := 5
  c_armijo := 1 / 2
  max_backtracking_iter := 3
  cg_max_iter := 2
  cg_forcing := fun _ => 1 / 100

/- The Batteries rational-number arithmetic is shipped `irreducible`, which
prevents `decide` from evaluating concrete solver runs; restore the ordinary
reducibility so that concrete executions can be checked by the kernel. -/
set_option allowUnsafeReducibility true in
attribute [semireducible] Rat.add Rat.mul Rat.sub Rat.inv

/-! ## Unfolding lemmas for the Driver's outer pass -/

/-- If the convergence criterion holds at the start of a pass, the Driver
stops there in `converged`, whatever the remaining budget. -/
theorem newtonLoop_conv_entry {n : ℕ} (obj : Objective n) (cfg : Config)
    (g0sq : ℚ) (fuel k : ℕ) (x g : Vec n) (evals : ℕ)
    (h : convCrit cfg (normSq g) g0sq) :
    newtonLoop obj cfg g0sq fuel k x g evals =
      ⟨x, TermStatus.converged, k, evals, normSq g, [normSq g], [obj.energy x], []⟩ := by
  cases fuel <;> simp [newtonLoop, h]

/-- A pass with exhausted budget and failing criterion stops in
`maxIterationsReached` at the current iterate. -/
theorem newtonLoop_budget_exhausted {n : ℕ} (obj : Objective n) (cfg : Config)
    (g0sq : ℚ) (k : ℕ) (x g : Vec n) (evals : ℕ)
    (h : ¬ convCrit cfg (normSq g) g0sq) :
    newtonLoop obj cfg g0sq 0 k x g evals =
      ⟨x, TermStatus.maxIterationsReached, k, evals, normSq g, [normSq g], [obj.energy x], []⟩ := by
  simp [newtonLoop, h]

/-- A pass whose directional derivative is negligible stops in
`negligibleDescent` at the current iterate. -/
theorem newtonLoop_negligible {n : ℕ} (obj : Objective n) (cfg : Config)
    (g0sq : ℚ) (fuel k : ℕ) (x g : Vec n) (evals : ℕ)
    (h : ¬ convCrit cfg (normSq g) g0sq)
    (h2 : |dot g (cgDir obj cfg x g)| < cfg.gdu_tolerance) :
    newtonLoop obj cfg g0sq (fuel + 1) k x g evals =
      ⟨x, TermStatus.negligibleDescent, k, evals, normSq g, [normSq g], [obj.energy x], []⟩ := by
  simp [newtonLoop, h, h2]

/-- A pass whose line search fails stops in `lineSearchFailed` at the
current iterate, committing no partial update. -/
theorem newtonLoop_lsf {n : ℕ} (obj : Objective n) (cfg : Config)
    (g0sq : ℚ) (fuel k : ℕ) (x g : Vec n) (evals : ℕ)
    (h : ¬ convCrit cfg (normSq g) g0sq)
    (h2 : ¬ |dot g (cgDir obj cfg x g)| < cfg.gdu_tolerance)
    (h3 : armijoSearch obj.energy x (cgDir obj cfg x g) (obj.energy x)
      (dot g (cgDir obj cfg x g)) cfg.c_armijo cfg.max_backtracking_iter 1 = none) :
    newtonLoop obj cfg g0sq (fuel + 1) k x g evals =
      ⟨x, TermStatus.lineSearchFailed, k, evals, normSq g, [normSq g], [obj.energy x], []⟩ := by
  simp [newtonLoop, h, h2, h3]

/-- A pass whose line search accepts step length `alpha` records the history
entry and continues from the updated iterate. -/
theorem newtonLoop_accept {n : ℕ} (obj : Objective n) (cfg : Config)
    (g0sq : ℚ) (fuel k : ℕ) (x g : Vec n) (evals : ℕ) (alpha e : ℚ)
    (h : ¬ convCrit cfg (normSq g) g0sq)
    (h2 : ¬ |dot g (cgDir obj cfg x g)| < cfg.gdu_tolerance)
    (h3 : armijoSearch obj.energy x (cgDir obj cfg x g) (obj.energy x)
      (dot g (cgDir obj cfg x g)) cfg.c_armijo cfg.max_backtracking_iter 1 = some (alpha, e)) :
    newtonLoop obj cfg g0sq (fuel + 1) k x g evals =
      addRecord (normSq g) (obj.energy x) (dot g (cgDir obj cfg x g))
        (newtonLoop obj cfg g0sq fuel (k + 1) (x + alpha • cgDir obj cfg x g)
          (obj.gradient (x + alpha • cgDir obj cfg x g)) (evals + 1)) := by
  simp [newtonLoop, h, h2, h3]

/-! ## Characterization of the backtracking line search -/

theorem half_div_pow (a : ℚ) (i : ℕ) : a / 2 / 2 ^ i = a / 2 ^ (i + 1) := by
  rw [div_div, ← pow_succ']

/-- The line search returns `none` exactly when every attempted step length
fails the Armijo test. -/
theorem armijoSearch_none_iff {n : ℕ} (E : Vec n → ℚ) (x dx : Vec n)
    (Ek gdu c : ℚ) : ∀ (fuel : ℕ) (alpha : ℚ),
    armijoSearch E x dx Ek gdu c fuel alpha = none ↔
      ∀ i, i < fuel → ¬ armijoTest E x dx Ek gdu c (alpha / 2 ^ i) := by
  intro fuel
  induction fuel with
  | zero =>
    intro alpha
    simp only [armijoSearch, true_iff]
    intro i hi
    exact absurd hi (Nat.not_lt_zero i)
  | succ f ih =>
    intro alpha
    by_cases h : E (x + alpha • dx) ≤ Ek + c * (alpha * gdu)
    · simp only [armijoSearch, if_pos h, reduceCtorEq, false_iff, not_forall]
      refine ⟨0, Nat.succ_pos f, ?_⟩
      simp only [not_not, armijoTest, pow_zero, div_one]
      exact h
    · rw [show armijoSearch E x dx Ek gdu c (f + 1) alpha
          = armijoSearch E x dx Ek gdu c f (alpha / 2) by
            simp [armijoSearch, h]]
      rw [ih (alpha / 2)]
      constructor
      · intro hall i hi
        cases i with
        | zero =>
          simpa only [armijoTest, pow_zero, div_one] using h
        | succ i' =>
          have hx := hall i' (by omega)
          rwa [half_div_pow] at hx
      · intro hall i hi
        have hx := hall (i + 1) (by omega)
        rwa [← half_div_pow] at hx

/-- If the line search succeeds, the accepted step length is the first
halving of the initial step length that passes the Armijo test, and the
returned energy is the energy at the accepted point. -/
theorem armijoSearch_some_elim {n : ℕ} (E : Vec n → ℚ) (x dx : Vec n)
    (Ek gdu c : ℚ) : ∀ (fuel : ℕ) (alpha beta e : ℚ),
    armijoSearch E x dx Ek gdu c fuel alpha = some (beta, e) →
      ∃ j, j < fuel ∧ beta = alpha / 2 ^ j ∧
        armijoTest E x dx Ek gdu c beta ∧
        (∀ i, i < j → ¬ armijoTest E x dx Ek gdu c (alpha / 2 ^ i)) ∧
        e = E (x + beta • dx) := by
  intro fuel
  induction fuel with
  | zero =>
    intro alpha beta e hsome
    simp [armijoSearch] at hsome
  | succ f ih =>
    intro alpha beta e hsome
    by_cases h : E (x + alpha • dx) ≤ Ek + c * (alpha * gdu)
    · rw [show armijoSearch E x dx Ek gdu c (f + 1) alpha
          = some (alpha, E (x + alpha • dx)) by simp [armijoSearch, h]] at hsome
      obtain ⟨hb, he⟩ : alpha = beta ∧ E (x + alpha • dx) = e := by
        simpa using hsome
      subst hb
      subst he
      refine ⟨0, Nat.succ_pos f, by simp, ?_, ?_, rfl⟩
      · exact h
      · intro i hi
        exact absurd hi (Nat.not_lt_zero i)
    · rw [show armijoSearch E x dx Ek gdu c (f + 1) alpha
          = armijoSearch E x dx Ek gdu c f (alpha / 2) by
            simp [armijoSearch, h]] at hsome
      obtain ⟨j, hj, hb, ht, hfirst, he⟩ := ih (alpha / 2) beta e hsome
      refine ⟨j + 1, by omega, ?_, ht, ?_, he⟩
      · rw [hb, half_div_pow]
      · intro i hi
        cases i with
        | zero =>
          simpa only [armijoTest, pow_zero, div_one] using h
        | succ i' =>
          have hx := hfirst i' (by omega)
          rwa [half_div_pow] at hx

/-- Completeness direction: the first passing halving is returned. -/
theorem armijoSearch_some_of {n : ℕ} (E : Vec n → ℚ) (x dx : Vec n)
    (Ek gdu c : ℚ) : ∀ (fuel j : ℕ) (alpha : ℚ), j < fuel →
    armijoTest E x dx Ek gdu c (alpha / 2 ^ j) →
    (∀ i, i < j → ¬ armijoTest E x dx Ek gdu c (alpha / 2 ^ i)) →
    armijoSearch E x dx Ek gdu c fuel alpha
      = some (alpha / 2 ^ j, E (x + (alpha / 2 ^ j) • dx)) := by
  intro fuel
  induction fuel with
  | zero =>
    intro j alpha hj
    exact absurd hj (Nat.not_lt_zero j)
  | succ f ih =>
    intro j alpha hj ht hfirst
    cases j with
    | zero =>
      have h : E (x + alpha • dx) ≤ Ek + c * (alpha * gdu) := by
        simpa only [armijoTest, pow_zero, div_one] using ht
      simp [armijoSearch, h]
    | succ j' =>
      have h0 : ¬ E (x + alpha • dx) ≤ Ek + c * (alpha * gdu) := by
        have := hfirst 0 (Nat.succ_pos j')
        simpa only [armijoTest, pow_zero, div_one] using this
      rw [show armijoSearch E x dx Ek gdu c (f + 1) alpha
          = armijoSearch E x dx Ek gdu c f (alpha / 2) by simp [armijoSearch, h0]]
      rw [show alpha / 2 ^ (j' + 1) = alpha / 2 / 2 ^ j' from (half_div_pow alpha j').symm]
      exact ih j' (alpha / 2) (by omega) (by rwa [half_div_pow]) (by
        intro i hi
        have hx := hfirst (i + 1) (by omega)
        rwa [← half_div_pow] at hx)

/-! ## Loop invariants of the Driver -/

/-- The Driver performs at most `k + fuel` outer iterations when entered with
`k` accepted iterations and `fuel` remaining budget. -/
theorem newtonLoop_iters_le {n : ℕ} (obj : Objective n) (cfg : Config)
    (g0sq : ℚ) : ∀ (fuel k : ℕ) (x g : Vec n) (evals : ℕ),
    (newtonLoop obj cfg g0sq fuel k x g evals).iters ≤ k + fuel := by
  intro fuel
  induction fuel with
  | zero =>
    intro k x g evals
    by_cases h : convCrit cfg (normSq g) g0sq
    · rw [newtonLoop_conv_entry obj cfg g0sq 0 k x g evals h]
      exact Nat.le_add_right k 0
    · rw [newtonLoop_budget_exhausted obj cfg g0sq k x g evals h]
      exact Nat.le_add_right k 0
  | succ f ih =>
    intro k x g evals
    by_cases h : convCrit cfg (normSq g) g0sq
    · rw [newtonLoop_conv_entry obj cfg g0sq (f + 1) k x g evals h]
      exact Nat.le_add_right k (f + 1)
    · by_cases h2 : |dot g (cgDir obj cfg x g)| < cfg.gdu_tolerance
      · rw [newtonLoop_negligible obj cfg g0sq f k x g evals h h2]
        exact Nat.le_add_right k (f + 1)
      · rcases hA : armijoSearch obj.energy x (cgDir obj cfg x g) (obj.energy x)
            (dot g (cgDir obj cfg x g)) cfg.c_armijo cfg.max_backtracking_iter 1 with
          _ | ⟨alpha, e⟩
        · rw [newtonLoop_lsf obj cfg g0sq f k x g evals h h2 hA]
          exact Nat.le_add_right k (f + 1)
        · rw [newtonLoop_accept obj cfg g0sq f k x g evals alpha e h h2 hA]
          have := ih (k + 1) (x + alpha • cgDir obj cfg x g)
            (obj.gradient (x + alpha • cgDir obj cfg x g)) (evals + 1)
          simp only [addRecord]
          omega

/-- A `converged` result reports a final gradient satisfying the
convergence criterion. -/
theorem newtonLoop_converged_crit {n : ℕ} (obj : Objective n) (cfg : Config)
    (g0sq : ℚ) : ∀ (fuel k : ℕ) (x g : Vec n) (evals : ℕ),
    (newtonLoop obj cfg g0sq fuel k x g evals).status = TermStatus.converged →
    convCrit cfg (newtonLoop obj cfg g0sq fuel k x g evals).finalGradNormSq g0sq := by
  intro fuel
  induction fuel with
  | zero =>
    intro k x g evals
    by_cases h : convCrit cfg (normSq g) g0sq
    · rw [newtonLoop_conv_entry obj cfg g0sq 0 k x g evals h]
      intro _
      exact h
    · rw [newtonLoop_budget_exhausted obj cfg g0sq k x g evals h]
      intro hst
      exact absurd hst (by simp)
  | succ f ih =>
    intro k x g evals
    by_cases h : convCrit cfg (normSq g) g0sq
    · rw [newtonLoop_conv_entry obj cfg g0sq (f + 1) k x g evals h]
      intro _
      exact h
    · by_cases h2 : |dot g (cgDir obj cfg x g)| < cfg.gdu_tolerance
      · rw [newtonLoop_negligible obj cfg g0sq f k x g evals h h2]
        intro hst
        exact absurd hst (by simp)
      · rcases hA : armijoSearch obj.energy x (cgDir obj cfg x g) (obj.energy x)
            (dot g (cgDir obj cfg x g)) cfg.c_armijo cfg.max_backtracking_iter 1 with
          _ | ⟨alpha, e⟩
        · rw [newtonLoop_lsf obj cfg g0sq f k x g evals h h2 hA]
          intro hst
          exact absurd hst (by simp)
        · rw [newtonLoop_accept obj cfg g0sq f k x g evals alpha e h h2 hA]
          simp only [addRecord]
          exact ih (k + 1) (x + alpha • cgDir obj cfg x g)
            (obj.gradient (x + alpha • cgDir obj cfg x g)) (evals + 1)

/-- A `maxIterationsReached` result has consumed the full budget and its
final gradient still fails the convergence criterion. -/
theorem newtonLoop_maxiter_inv {n : ℕ} (obj : Objective n) (cfg : Config)
    (g0sq : ℚ) : ∀ (fuel k : ℕ) (x g : Vec n) (evals : ℕ),
    (newtonLoop obj cfg g0sq fuel k x g evals).status = TermStatus.maxIterationsReached →
    (newtonLoop obj cfg g0sq fuel k x g evals).iters = k + fuel ∧
      ¬ convCrit cfg (newtonLoop obj cfg g0sq fuel k x g evals).finalGradNormSq g0sq := by
  intro fuel
  induction fuel with
  | zero =>
    intro k x g evals
    by_cases h : convCrit cfg (normSq g) g0sq
    · rw [newtonLoop_conv_entry obj cfg g0sq 0 k x g evals h]
      intro hst
      exact absurd hst (by simp)
    · rw [newtonLoop_budget_exhausted obj cfg g0sq k x g evals h]
      intro _
      exact ⟨rfl, h⟩
  | succ f ih =>
    intro k x g evals
    by_cases h : convCrit cfg (normSq g) g0sq
    · rw [newtonLoop_conv_entry obj cfg g0sq (f + 1) k x g evals h]
      intro hst
      exact absurd hst (by simp)
    · by_cases h2 : |dot g (cgDir obj cfg x g)| < cfg.gdu_tolerance
      · rw [newtonLoop_negligible obj cfg g0sq f k x g evals h h2]
        intro hst
        exact absurd hst (by simp)
      · rcases hA : armijoSearch obj.energy x (cgDir obj cfg x g) (obj.energy x)
            (dot g (cgDir obj cfg x g)) cfg.c_armijo cfg.max_backtracking_iter 1 with
          _ | ⟨alpha, e⟩
        · rw [newtonLoop_lsf obj cfg g0sq f k x g evals h h2 hA]
          intro hst
          exact absurd hst (by simp)
        · rw [newtonLoop_accept obj cfg g0sq f k x g evals alpha e h h2 hA]
          simp only [addRecord]
          intro hst
          have := ih (k + 1) (x + alpha • cgDir obj cfg x g)
            (obj.gradient (x + alpha • cgDir obj cfg x g)) (evals + 1) hst
          exact ⟨by omega, this.2⟩

/-- When the loop is entered with the gradient consistently evaluated at the
iterate, a `lineSearchFailed` result returns precisely the iterate at which
the failing line search was run: the reconstructed line search at the
returned iterate fails, and no partial update was committed. -/
theorem newtonLoop_lsf_inv {n : ℕ} (obj : Objective n) (cfg : Config)
    (g0sq : ℚ) : ∀ (fuel k : ℕ) (x : Vec n) (evals : ℕ),
    (newtonLoop obj cfg g0sq fuel k x (obj.gradient x) evals).status
        = TermStatus.lineSearchFailed →
    armijoSearch obj.energy (newtonLoop obj cfg g0sq fuel k x (obj.gradient x) evals).x
      (cgDir obj cfg (newtonLoop obj cfg g0sq fuel k x (obj.gradient x) evals).x
        (obj.gradient (newtonLoop obj cfg g0sq fuel k x (obj.gradient x) evals).x))
      (obj.energy (newtonLoop obj cfg g0sq fuel k x (obj.gradient x) evals).x)
      (dot (obj.gradient (newtonLoop obj cfg g0sq fuel k x (obj.gradient x) evals).x)
        (cgDir obj cfg (newtonLoop obj cfg g0sq fuel k x (obj.gradient x) evals).x
          (obj.gradient (newtonLoop obj cfg g0sq fuel k x (obj.gradient x) evals).x)))
      cfg.c_armijo cfg.max_backtracking_iter 1 = none := by
  intro fuel
  induction fuel with
  | zero =>
    intro k x evals
    by_cases h : convCrit cfg (normSq (obj.gradient x)) g0sq
    · rw [newtonLoop_conv_entry obj cfg g0sq 0 k x (obj.gradient x) evals h]
      intro hst
      exact absurd hst (by simp)
    · rw [newtonLoop_budget_exhausted obj cfg g0sq k x (obj.gradient x) evals h]
      intro hst
      exact absurd hst (by simp)
  | succ f ih =>
    intro k x evals
    by_cases h : convCrit cfg (normSq (obj.gradient x)) g0sq
    · rw [newtonLoop_conv_entry obj cfg g0sq (f + 1) k x (obj.gradient x) evals h]
      intro hst
      exact absurd hst (by simp)
    · by_cases h2 : |dot (obj.gradient x) (cgDir obj cfg x (obj.gradient x))|
          < cfg.gdu_tolerance
      · rw [newtonLoop_negligible obj cfg g0sq f k x (obj.gradient x) evals h h2]
        intro hst
        exact absurd hst (by simp)
      · rcases hA : armijoSearch obj.energy x (cgDir obj cfg x (obj.gradient x))
            (obj.energy x) (dot (obj.gradient x) (cgDir obj cfg x (obj.gradient x)))
            cfg.c_armijo cfg.max_backtracking_iter 1 with _ | ⟨alpha, e⟩
        · rw [newtonLoop_lsf obj cfg g0sq f k x (obj.gradient x) evals h h2 hA]
          intro _
          exact hA
        · rw [newtonLoop_accept obj cfg g0sq f k x (obj.gradient x) evals alpha e h h2 hA]
          simp only [addRecord]
          exact ih (k + 1) (x + alpha • cgDir obj cfg x (obj.gradient x)) (evals + 1)

/-- Every result's recorded energy history begins with the energy at the
entry iterate. -/
theorem newtonLoop_energies_head {n : ℕ} (obj : Objective n) (cfg : Config)
    (g0sq : ℚ) (fuel k : ℕ) (x g : Vec n) (evals : ℕ) :
    (newtonLoop obj cfg g0sq fuel k x g evals).energies.head? = some (obj.energy x) := by
  by_cases h : convCrit cfg (normSq g) g0sq
  · rw [newtonLoop_conv_entry obj cfg g0sq fuel k x g evals h]
    rfl
  · cases fuel with
    | zero =>
      rw [newtonLoop_budget_exhausted obj cfg g0sq k x g evals h]
      rfl
    | succ f =>
      by_cases h2 : |dot g (cgDir obj cfg x g)| < cfg.gdu_tolerance
      · rw [newtonLoop_negligible obj cfg g0sq f k x g evals h h2]
        rfl
      · rcases hA : armijoSearch obj.energy x (cgDir obj cfg x g) (obj.energy x)
            (dot g (cgDir obj cfg x g)) cfg.c_armijo cfg.max_backtracking_iter 1 with
          _ | ⟨alpha, e⟩
        · rw [newtonLoop_lsf obj cfg g0sq f k x g evals h h2 hA]
          rfl
        · rw [newtonLoop_accept obj cfg g0sq f k x g evals alpha e h h2 hA]
          simp [addRecord]

/-- With a non-negative Armijo constant, the recorded energy history is
non-increasing as long as every accepted step had a non-positive directional
derivative: each accepted step satisfies the Armijo bound
`E(x + alpha dx) ≤ E(x) + c_armijo * alpha * gdu ≤ E(x)`. -/
theorem newtonLoop_energies_chain {n : ℕ} (obj : Objective n) (cfg : Config)
    (g0sq : ℚ) : ∀ (fuel k : ℕ) (x g : Vec n) (evals : ℕ),
    0 ≤ cfg.c_armijo →
    (∀ d ∈ (newtonLoop obj cfg g0sq fuel k x g evals).gdus, d ≤ 0) →
    List.Chain' (fun a b => b ≤ a) (newtonLoop obj cfg g0sq fuel k x g evals).energies := by
  intro fuel
  induction fuel with
  | zero =>
    intro k x g evals hc _hgd
    by_cases h : convCrit cfg (normSq g) g0sq
    · rw [newtonLoop_conv_entry obj cfg g0sq 0 k x g evals h]
      exact List.chain'_singleton _
    · rw [newtonLoop_budget_exhausted obj cfg g0sq k x g evals h]
      exact List.chain'_singleton _
  | succ f ih =>
    intro k x g evals hc hgd
    by_cases h : convCrit cfg (normSq g) g0sq
    · rw [newtonLoop_conv_entry obj cfg g0sq (f + 1) k x g evals h]
      exact List.chain'_singleton _
    · by_cases h2 : |dot g (cgDir obj cfg x g)| < cfg.gdu_tolerance
      · rw [newtonLoop_negligible obj cfg g0sq f k x g evals h h2]
        exact List.chain'_singleton _
      · rcases hA : armijoSearch obj.energy x (cgDir obj cfg x g) (obj.energy x)
            (dot g (cgDir obj cfg x g)) cfg.c_armijo cfg.max_backtracking_iter 1 with
          _ | ⟨alpha, e⟩
        · rw [newtonLoop_lsf obj cfg g0sq f k x g evals h h2 hA]
          exact List.chain'_singleton _
        · rw [newtonLoop_accept obj cfg g0sq f k x g evals alpha e h h2 hA] at hgd ⊢
          simp only [addRecord] at hgd ⊢
          have hgdu : dot g (cgDir obj cfg x g) ≤ 0 := hgd _ (List.mem_cons_self _ _)
          have hgd' : ∀ d ∈ (newtonLoop obj cfg g0sq f (k + 1)
              (x + alpha • cgDir obj cfg x g)
              (obj.gradient (x + alpha • cgDir obj cfg x g)) (evals + 1)).gdus, d ≤ 0 :=
            fun d hd => hgd d (List.mem_cons_of_mem _ hd)
          refine List.chain'_cons'.mpr ⟨?_, ih (k + 1) (x + alpha • cgDir obj cfg x g)
            (obj.gradient (x + alpha • cgDir obj cfg x g)) (evals + 1) hc hgd'⟩
          intro y hy
          rw [newtonLoop_energies_head obj cfg g0sq f (k + 1)
            (x + alpha • cgDir obj cfg x g)
            (obj.gradient (x + alpha • cgDir obj cfg x g)) (evals + 1)] at hy
          obtain rfl : obj.energy (x + alpha • cgDir obj cfg x g) = y := by
            simpa using hy
          obtain ⟨j, _hj, halpha, ht, _hfirst, _he⟩ :=
            armijoSearch_some_elim obj.energy x (cgDir obj cfg x g) (obj.energy x)
              (dot g (cgDir obj cfg x g)) cfg.c_armijo cfg.max_backtracking_iter 1
              alpha e hA
          have halphapos : 0 < alpha := by
            rw [halpha]
            positivity
          have hmul : cfg.c_armijo * (alpha * dot g (cgDir obj cfg x g)) ≤ 0 :=
            mul_nonpos_of_nonneg_of_nonpos hc
              (mul_nonpos_of_nonneg_of_nonpos halphapos.le hgdu)
          have := ht
          rw [armijoTest] at this
          linarith

/-! ## Algebra of the quadratic test objective -/

theorem dot_comm {n : ℕ} (u v : Vec n) : dot u v = dot v u := by
  unfold dot
  exact Finset.sum_congr rfl fun i _ => mul_comm _ _

theorem dot_add_left {n : ℕ} (u v w : Vec n) : dot (u + v) w = dot u w + dot v w := by
  unfold dot
  rw [← Finset.sum_add_distrib]
  exact Finset.sum_congr rfl fun i _ => by
    simp [add_mul]

theorem dot_add_right {n : ℕ} (u v w : Vec n) : dot u (v + w) = dot u v + dot u w := by
  rw [dot_comm, dot_add_left, dot_comm v u, dot_comm w u]

theorem dot_sub_right {n : ℕ} (u v w : Vec n) : dot u (v - w) = dot u v - dot u w := by
  unfold dot
  rw [← Finset.sum_sub_distrib]
  exact Finset.sum_congr rfl fun i _ => by
    simp [mul_sub]

theorem dot_sub_left {n : ℕ} (u v w : Vec n) : dot (u - v) w = dot u w - dot v w := by
  rw [dot_comm, dot_sub_right, dot_comm w u, dot_comm w v]

theorem dot_neg_right {n : ℕ} (u v : Vec n) : dot u (-v) = -dot u v := by
  unfold dot
  rw [← Finset.sum_neg_distrib]
  exact Finset.sum_congr rfl fun i _ => by
    simp

theorem normSq_zero_vec {n : ℕ} : normSq (0 : Vec n) = 0 := by
  unfold normSq dot
  simp

theorem mulVec_add {n : ℕ} (H : Fin n → Fin n → ℚ) (u v : Vec n) :
    mulVec H (u + v) = mulVec H u + mulVec H v := by
  funext i
  simp only [mulVec, Pi.add_apply, mul_add, Finset.sum_add_distrib]

/-- Symmetry of the quadratic form defined by a symmetric matrix. -/
theorem dot_mulVec_symm {n : ℕ} (H : Fin n → Fin n → ℚ)
    (hsymm : ∀ i j, H i j = H j i) (u v : Vec n) :
    dot u (mulVec H v) = dot v (mulVec H u) := by
  unfold dot mulVec
  simp only [Finset.mul_sum]
  rw [Finset.sum_comm]
  refine Finset.sum_congr rfl fun a _ => Finset.sum_congr rfl fun b _ => ?_
  rw [hsymm b a]
  ring

/-- Exact second-order expansion of the quadratic energy along a step. -/
theorem quadEnergy_add {n : ℕ} (H : Fin n → Fin n → ℚ) (b : Vec n)
    (hsymm : ∀ i j, H i j = H j i) (x d : Vec n) :
    quadEnergy H b (x + d)
      = quadEnergy H b x + dot (quadGrad H b x) d + dot d (mulVec H d) / 2 := by
  unfold quadEnergy quadGrad
  rw [mulVec_add, dot_add_left, dot_add_right, dot_add_right, dot_add_right,
    dot_sub_left, dot_mulVec_symm H hsymm x d, dot_comm b d, dot_comm (mulVec H x) d]
  ring

/-! ## Claims -/

/-- Claim C1: in the Truncated CG Solver, non-positive curvature
`pHp = p · H(p) ≤ 0` at the first inner iteration makes the solver return
the steepest-descent direction `dx = -g` (the right-hand side `b`, with the
default identity preconditioner) with the non-error `negCurvature` status;
non-positive curvature after at least one successful inner step makes it
return the direction accumulated so far, performing no further CG step. -/
theorem tcg_negcurv_safeguard :
    (∀ (n : ℕ) (H : Vec n → Vec n) (b : Vec n) (tolSq : ℚ) (m : ℕ),
      dot b (H b) ≤ 0 →
      truncatedCG H (fun v => v) b tolSq (m + 1) = ⟨b, CGStatus.negCurvature⟩)
    ∧ (∀ (n : ℕ) (H M : Vec n → Vec n) (tolSq : ℚ) (fuel iter : ℕ)
        (x r p : Vec n) (rz : ℚ), iter ≠ 0 → dot p (H p) ≤ 0 →
      cgLoop H M tolSq (fuel + 1) iter x r p rz = ⟨x, CGStatus.negCurvature⟩) := by
  constructor
  · intro n H b tolSq m h
    simp [truncatedCG, cgLoop, h]
  · intro n H M tolSq fuel iter x r p rz hiter h
    simp [cgLoop, h, hiter]

/-- Witness for C1 at the always-negative-curvature operator `H(v) = -v`. -/
theorem tcg_negcurv_safeguard_witness :
    (dot ![(1 : ℚ)] ((fun v : Vec 1 => -v) ![(1 : ℚ)]) ≤ 0
      ∧ truncatedCG (fun v : Vec 1 => -v) (fun v => v) ![(1 : ℚ)] 1 3
          = ⟨![(1 : ℚ)], CGStatus.negCurvature⟩)
    ∧ ((1 : ℕ) ≠ 0 ∧ dot ![(1 : ℚ)] ((fun v : Vec 1 => -v) ![(1 : ℚ)]) ≤ 0
      ∧ cgLoop (fun v : Vec 1 => -v) (fun v => v) 1 3 1 ![(2 : ℚ)] ![(1 : ℚ)] ![(1 : ℚ)] 1
          = ⟨![(2 : ℚ)], CGStatus.negCurvature⟩) :=
  ⟨⟨by decide, tcg_negcurv_safeguard.1 1 (fun v => -v) ![(1 : ℚ)] 1 2 (by decide)⟩,
   ⟨by decide, by decide,
    tcg_negcurv_safeguard.2 1 (fun v => -v) (fun v => v) 1 2 1 ![(2 : ℚ)] ![(1 : ℚ)]
      ![(1 : ℚ)] 1 (by decide) (by decide)⟩⟩

/-- Claim C2: the Driver's convergence check runs at the start of each outer
pass before any new step; a `converged` result means the final gradient met
`‖g‖ < abs_tolerance ∨ ‖g‖/‖g0‖ < rel_tolerance`, a pass entered with the
criterion satisfied stops immediately at that iterate, and a starting point
already within the absolute tolerance yields `converged` after exactly one
gradient evaluation and zero outer Newton steps. -/
theorem newton_convergence_check :
    (∀ (n : ℕ) (obj : Objective n) (cfg : Config) (g0sq : ℚ) (fuel k : ℕ)
        (x g : Vec n) (evals : ℕ),
      (newtonLoop obj cfg g0sq fuel k x g evals).status = TermStatus.converged →
      convCrit cfg (newtonLoop obj cfg g0sq fuel k x g evals).finalGradNormSq g0sq)
    ∧ (∀ (n : ℕ) (obj : Objective n) (cfg : Config) (g0sq : ℚ) (fuel k : ℕ)
        (x g : Vec n) (evals : ℕ), convCrit cfg (normSq g) g0sq →
      newtonLoop obj cfg g0sq fuel k x g evals =
        ⟨x, TermStatus.converged, k, evals, normSq g, [normSq g], [obj.energy x], []⟩)
    ∧ (∀ (n : ℕ) (obj : Objective n) (cfg : Config) (x0 : Vec n),
      normSq (obj.gradient x0) < cfg.abs_tolerance ^ 2 →
      solve obj cfg x0 =
        ⟨x0, TermStatus.converged, 0, 1, normSq (obj.gradient x0),
          [normSq (obj.gradient x0)], [obj.energy x0], []⟩) := by
  refine ⟨?_, ?_, ?_⟩
  · intro n obj cfg g0sq fuel k x g evals
    exact newtonLoop_converged_crit obj cfg g0sq fuel k x g evals
  · intro n obj cfg g0sq fuel k x g evals h
    exact newtonLoop_conv_entry obj cfg g0sq fuel k x g evals h
  · intro n obj cfg x0 h
    unfold solve
    exact newtonLoop_conv_entry obj cfg (normSq (obj.gradient x0)) cfg.max_iter 0 x0
      (obj.gradient x0) 1 (Or.inl h)

/-- Witness for C2 at a stationary starting point of the quadratic. -/
theorem newton_convergence_check_witness :
    normSq ((quadObjective Hd4 (0 : Vec 2)).gradient ![0, 0]) < cfgW.abs_tolerance ^ 2
    ∧ solve (quadObjective Hd4 (0 : Vec 2)) cfgW ![0, 0] =
        ⟨![0, 0], TermStatus.converged, 0, 1,
          normSq ((quadObjective Hd4 (0 : Vec 2)).gradient ![0, 0]),
          [normSq ((quadObjective Hd4 (0 : Vec 2)).gradient ![0, 0])],
          [(quadObjective Hd4 (0 : Vec 2)).energy ![0, 0]], []⟩ :=
  ⟨by decide,
   newton_convergence_check.2.2 2 (quadObjective Hd4 (0 : Vec 2)) cfgW ![0, 0] (by decide)⟩

/-- Claim C3: the Armijo backtracking line search starts at step length 1,
halves the step after each failed test, accepts the first step length
satisfying `energy(x + alpha dx) ≤ E_k + c_armijo * alpha * gdu`, makes at
most `max_backtracking_iter` attempts, and on total failure the Driver pass
terminates in `lineSearchFailed` without raising. -/
theorem armijo_backtracking_spec :
    (∀ (n : ℕ) (E : Vec n → ℚ) (x dx : Vec n) (Ek gdu c : ℚ) (mbt j : ℕ),
      j < mbt → armijoTest E x dx Ek gdu c (1 / 2 ^ j) →
      (∀ i, i < j → ¬ armijoTest E x dx Ek gdu c (1 / 2 ^ i)) →
      armijoSearch E x dx Ek gdu c mbt 1
        = some (1 / 2 ^ j, E (x + ((1 : ℚ) / 2 ^ j) • dx)))
    ∧ (∀ (n : ℕ) (E : Vec n → ℚ) (x dx : Vec n) (Ek gdu c : ℚ) (mbt : ℕ)
        (beta e : ℚ), armijoSearch E x dx Ek gdu c mbt 1 = some (beta, e) →
      ∃ j, j < mbt ∧ beta = 1 / 2 ^ j ∧ armijoTest E x dx Ek gdu c beta ∧
        (∀ i, i < j → ¬ armijoTest E x dx Ek gdu c (1 / 2 ^ i)) ∧ e = E (x + beta • dx))
    ∧ (∀ (n : ℕ) (E : Vec n → ℚ) (x dx : Vec n) (Ek gdu c : ℚ) (mbt : ℕ),
      armijoSearch E x dx Ek gdu c mbt 1 = none ↔
        ∀ i, i < mbt → ¬ armijoTest E x dx Ek gdu c (1 / 2 ^ i))
    ∧ (∀ (n : ℕ) (obj : Objective n) (cfg : Config) (g0sq : ℚ) (fuel k : ℕ)
        (x g : Vec n) (evals : ℕ),
      ¬ convCrit cfg (normSq g) g0sq →
      ¬ |dot g (cgDir obj cfg x g)| < cfg.gdu_tolerance →
      armijoSearch obj.energy x (cgDir obj cfg x g) (obj.energy x)
        (dot g (cgDir obj cfg x g)) cfg.c_armijo cfg.max_backtracking_iter 1 = none →
      newtonLoop obj cfg g0sq (fuel + 1) k x g evals =
        ⟨x, TermStatus.lineSearchFailed, k, evals, normSq g, [normSq g],
          [obj.energy x], []⟩) := by
  refine ⟨?_, ?_, ?_, ?_⟩
  · intro n E x dx Ek gdu c mbt j hj ht hfirst
    exact armijoSearch_some_of E x dx Ek gdu c mbt j 1 hj ht hfirst
  · intro n E x dx Ek gdu c mbt beta e hsome
    exact armijoSearch_some_elim E x dx Ek gdu c mbt 1 beta e hsome
  · intro n E x dx Ek gdu c mbt
    exact armijoSearch_none_iff E x dx Ek gdu c mbt 1
  · intro n obj cfg g0sq fuel k x g evals h h2 h3
    exact newtonLoop_lsf obj cfg g0sq fuel k x g evals h h2 h3

/-- Witness for C3 on the one-dimensional quadratic with an oversized Armijo
constant: every attempt fails and the Driver pass reports the failure. -/
theorem armijo_backtracking_spec_witness :
    (¬ convCrit cfgC (normSq ((quadObjective H1 (0 : Vec 1)).gradient x01))
        (normSq ((quadObjective H1 (0 : Vec 1)).gradient x01)))
    ∧ (¬ |dot ((quadObjective H1 (0 : Vec 1)).gradient x01)
          (cgDir (quadObjective H1 (0 : Vec 1)) cfgC x01
            ((quadObjective H1 (0 : Vec 1)).gradient x01))| < cfgC.gdu_tolerance)
    ∧ newtonLoop (quadObjective H1 (0 : Vec 1)) cfgC
        (normSq ((quadObjective H1 (0 : Vec 1)).gradient x01)) 5 0 x01
        ((quadObjective H1 (0 : Vec 1)).gradient x01) 1 =
      ⟨x01, TermStatus.lineSearchFailed, 0, 1,
        normSq ((quadObjective H1 (0 : Vec 1)).gradient x01),
        [normSq ((quadObjective H1 (0 : Vec 1)).gradient x01)],
        [(quadObjective H1 (0 : Vec 1)).energy x01], []⟩ :=
  ⟨by decide, by decide,
   armijo_backtracking_spec.2.2.2 1 (quadObjective H1 (0 : Vec 1)) cfgC
     (normSq ((quadObjective H1 (0 : Vec 1)).gradient x01)) 4 0 x01
     ((quadObjective H1 (0 : Vec 1)).gradient x01) 1
     (by decide) (by decide) (by decide)⟩

/-- Claim C4: a `lineSearchFailed` termination returns exactly the iterate at
which the failing line search ran (the reconstructed search at the returned
iterate fails; no partial update is committed); with
`max_backtracking_iter = 0`, a non-stationary start and a non-negligible
direction, the solve fails immediately with the input iterate unchanged. -/
theorem line_search_failure_preserves_iterate :
    (∀ (n : ℕ) (obj : Objective n) (cfg : Config) (g0sq : ℚ) (fuel k : ℕ)
        (x : Vec n) (evals : ℕ),
      (newtonLoop obj cfg g0sq fuel k x (obj.gradient x) evals).status
          = TermStatus.lineSearchFailed →
      armijoSearch obj.energy (newtonLoop obj cfg g0sq fuel k x (obj.gradient x) evals).x
        (cgDir obj cfg (newtonLoop obj cfg g0sq fuel k x (obj.gradient x) evals).x
          (obj.gradient (newtonLoop obj cfg g0sq fuel k x (obj.gradient x) evals).x))
        (obj.energy (newtonLoop obj cfg g0sq fuel k x (obj.gradient x) evals).x)
        (dot (obj.gradient (newtonLoop obj cfg g0sq fuel k x (obj.gradient x) evals).x)
          (cgDir obj cfg (newtonLoop obj cfg g0sq fuel k x (obj.gradient x) evals).x
            (obj.gradient (newtonLoop obj cfg g0sq fuel k x (obj.gradient x) evals).x)))
        cfg.c_armijo cfg.max_backtracking_iter 1 = none)
    ∧ (∀ (n : ℕ) (obj : Objective n) (cfg : Config) (x0 : Vec n),
      cfg.max_backtracking_iter = 0 → 1 ≤ cfg.max_iter →
      ¬ convCrit cfg (normSq (obj.gradient x0)) (normSq (obj.gradient x0)) →
      cfg.gdu_tolerance ≤ |dot (obj.gradient x0) (cgDir obj cfg x0 (obj.gradient x0))| →
      solve obj cfg x0 =
        ⟨x0, TermStatus.lineSearchFailed, 0, 1, normSq (obj.gradient x0),
          [normSq (obj.gradient x0)], [obj.energy x0], []⟩) := by
  constructor
  · intro n obj cfg g0sq fuel k x evals
    exact newtonLoop_lsf_inv obj cfg g0sq fuel k x evals
  · intro n obj cfg x0 hmbt hmi h hgdu
    obtain ⟨m, hm⟩ : ∃ m, cfg.max_iter = m + 1 := ⟨cfg.max_iter - 1, by omega⟩
    unfold solve
    rw [hm]
    refine newtonLoop_lsf obj cfg (normSq (obj.gradient x0)) m 0 x0
      (obj.gradient x0) 1 h (not_lt.mpr hgdu) ?_
    rw [hmbt]
    rfl

/-- Witness for C4: `max_backtracking_iter = 0` fails the line search at once
and hands back the unchanged input iterate. -/
theorem line_search_failure_preserves_iterate_witness :
    cfgB.max_backtracking_iter = 0 ∧ 1 ≤ cfgB.max_iter
    ∧ (¬ convCrit cfgB (normSq ((quadObjective H1 (0 : Vec 1)).gradient x01))
        (normSq ((quadObjective H1 (0 : Vec 1)).gradient x01)))
    ∧ solve (quadObjective H1 (0 : Vec 1)) cfgB x01 =
        ⟨x01, TermStatus.lineSearchFailed, 0, 1,
          normSq ((quadObjective H1 (0 : Vec 1)).gradient x01),
          [normSq ((quadObjective H1 (0 : Vec 1)).gradient x01)],
          [(quadObjective H1 (0 : Vec 1)).energy x01], []⟩ :=
  ⟨rfl, by decide, by decide,
   line_search_failure_preserves_iterate.2 1 (quadObjective H1 (0 : Vec 1)) cfgB x01
     rfl (by decide) (by decide) (by decide)⟩

/-- Claim C6: the Driver performs at most `max_iter` outer iterations; a
pass entered with the convergence criterion failing and the iteration budget
exhausted (the count has reached `max_iter`) terminates with status
`maxIterationsReached` at the current best iterate; conversely a
`maxIterationsReached` termination happens exactly at the exhausted budget
with the criterion still failing; and the result is returned through the
result channel of the total `solve` function, never by raising. -/
theorem newton_iteration_cap :
    (∀ (n : ℕ) (obj : Objective n) (cfg : Config) (g0sq : ℚ) (fuel k : ℕ)
        (x g : Vec n) (evals : ℕ),
      (newtonLoop obj cfg g0sq fuel k x g evals).iters ≤ k + fuel)
    ∧ (∀ (n : ℕ) (obj : Objective n) (cfg : Config) (g0sq : ℚ) (k : ℕ)
        (x g : Vec n) (evals : ℕ),
      ¬ convCrit cfg (normSq g) g0sq →
      newtonLoop obj cfg g0sq 0 k x g evals =
        ⟨x, TermStatus.maxIterationsReached, k, evals, normSq g, [normSq g],
          [obj.energy x], []⟩)
    ∧ (∀ (n : ℕ) (obj : Objective n) (cfg : Config) (g0sq : ℚ) (fuel k : ℕ)
        (x g : Vec n) (evals : ℕ),
      (newtonLoop obj cfg g0sq fuel k x g evals).status
          = TermStatus.maxIterationsReached →
      (newtonLoop obj cfg g0sq fuel k x g evals).iters = k + fuel ∧
        ¬ convCrit cfg (newtonLoop obj cfg g0sq fuel k x g evals).finalGradNormSq g0sq)
    ∧ (∀ (n : ℕ) (obj : Objective n) (cfg : Config) (x0 : Vec n),
      (solve obj cfg x0).iters ≤ cfg.max_iter ∧
        ((solve obj cfg x0).status = TermStatus.maxIterationsReached →
          (solve obj cfg x0).iters = cfg.max_iter)) := by
  refine ⟨?_, ?_, ?_, ?_⟩
  · intro n obj cfg g0sq fuel k x g evals
    exact newtonLoop_iters_le obj cfg g0sq fuel k x g evals
  · intro n obj cfg g0sq k x g evals h
    exact newtonLoop_budget_exhausted obj cfg g0sq k x g evals h
  · intro n obj cfg g0sq fuel k x g evals
    exact newtonLoop_maxiter_inv obj cfg g0sq fuel k x g evals
  · intro n obj cfg x0
    constructor
    · have h := newtonLoop_iters_le obj cfg (normSq (obj.gradient x0)) cfg.max_iter 0 x0
        (obj.gradient x0) 1
      unfold solve
      simpa using h
    · intro hst
      unfold solve at hst ⊢
      have h := (newtonLoop_maxiter_inv obj cfg (normSq (obj.gradient x0)) cfg.max_iter 0 x0
        (obj.gradient x0) 1 hst).1
      simpa using h

/-- Witness for C6: a pass with failing criterion and exhausted budget
returns `maxIterationsReached` at the current iterate, and a full run that
exhausts its single-iteration budget reports exactly `max_iter` iterations. -/
theorem newton_iteration_cap_witness :
    (¬ convCrit cfg7 (normSq ((quadObjective Hdiag (0 : Vec 2)).gradient x07))
        (normSq ((quadObjective Hdiag (0 : Vec 2)).gradient x07)))
    ∧ newtonLoop (quadObjective Hdiag (0 : Vec 2)) cfg7
        (normSq ((quadObjective Hdiag (0 : Vec 2)).gradient x07)) 0 1 x07
        ((quadObjective Hdiag (0 : Vec 2)).gradient x07) 2 =
      ⟨x07, TermStatus.maxIterationsReached, 1, 2,
        normSq ((quadObjective Hdiag (0 : Vec 2)).gradient x07),
        [normSq ((quadObjective Hdiag (0 : Vec 2)).gradient x07)],
        [(quadObjective Hdiag (0 : Vec 2)).energy x07], []⟩
    ∧ (solve (quadObjective Hdiag (0 : Vec 2)) cfg7 x07).status
        = TermStatus.maxIterationsReached
    ∧ (solve (quadObjective Hdiag (0 : Vec 2)) cfg7 x07).iters = cfg7.max_iter :=
  ⟨by decide,
   newton_iteration_cap.2.1 2 (quadObjective Hdiag (0 : Vec 2)) cfg7
     (normSq ((quadObjective Hdiag (0 : Vec 2)).gradient x07)) 1 x07
     ((quadObjective Hdiag (0 : Vec 2)).gradient x07) 2 (by decide),
   by decide,
   (newton_iteration_cap.2.2.2 2 (quadObjective Hdiag (0 : Vec 2)) cfg7 x07).2 (by decide)⟩

/-- Claim C8: after CG returns a direction, the Driver computes
`gdu = g · dx`; whenever `|gdu|` falls below `gdu_tolerance` (and the
convergence criterion does not already hold) the pass terminates early in
`negligibleDescent`, a state distinct from `converged`. -/
theorem negligible_descent_termination :
    (∀ (n : ℕ) (obj : Objective n) (cfg : Config) (g0sq : ℚ) (fuel k : ℕ)
        (x g : Vec n) (evals : ℕ),
      ¬ convCrit cfg (normSq g) g0sq →
      |dot g (cgDir obj cfg x g)| < cfg.gdu_tolerance →
      newtonLoop obj cfg g0sq (fuel + 1) k x g evals =
        ⟨x, TermStatus.negligibleDescent, k, evals, normSq g, [normSq g],
          [obj.energy x], []⟩)
    ∧ TermStatus.negligibleDescent ≠ TermStatus.converged := by
  constructor
  · intro n obj cfg g0sq fuel k x g evals h h2
    exact newtonLoop_negligible obj cfg g0sq fuel k x g evals h h2
  · intro hcontra
    exact absurd hcontra (by simp)

/-- Witness for C8 with an oversized `gdu_tolerance`. -/
theorem negligible_descent_termination_witness :
    (¬ convCrit cfgN (normSq ((quadObjective H1 (0 : Vec 1)).gradient x01))
        (normSq ((quadObjective H1 (0 : Vec 1)).gradient x01)))
    ∧ (|dot ((quadObjective H1 (0 : Vec 1)).gradient x01)
          (cgDir (quadObjective H1 (0 : Vec 1)) cfgN x01
            ((quadObjective H1 (0 : Vec 1)).gradient x01))| < cfgN.gdu_tolerance)
    ∧ newtonLoop (quadObjective H1 (0 : Vec 1)) cfgN
        (normSq ((quadObjective H1 (0 : Vec 1)).gradient x01)) 5 0 x01
        ((quadObjective H1 (0 : Vec 1)).gradient x01) 1 =
      ⟨x01, TermStatus.negligibleDescent, 0, 1,
        normSq ((quadObjective H1 (0 : Vec 1)).gradient x01),
        [normSq ((quadObjective H1 (0 : Vec 1)).gradient x01)],
        [(quadObjective H1 (0 : Vec 1)).energy x01], []⟩ :=
  ⟨by decide, by decide,
   negligible_descent_termination.1 1 (quadObjective H1 (0 : Vec 1)) cfgN
     (normSq ((quadObjective H1 (0 : Vec 1)).gradient x01)) 4 0 x01
     ((quadObjective H1 (0 : Vec 1)).gradient x01) 1 (by decide) (by decide)⟩

/-- A line search whose very first attempt passes accepts step length 1. -/
theorem armijoSearch_first_accept {n : ℕ} (E : Vec n → ℚ) (x dx : Vec n)
    (Ek gdu c : ℚ) (mb : ℕ) (h : E (x + (1 : ℚ) • dx) ≤ Ek + c * (1 * gdu)) :
    armijoSearch E x dx Ek gdu c (mb + 1) 1 = some (1, E (x + (1 : ℚ) • dx)) := by
  simp only [armijoSearch, if_pos h]

/-- Claim C5: on the convex quadratic energy `½ xᵀHx - bᵀx` with symmetric
positive-semidefinite `H`, if the truncated CG direction at the start solves
the Newton system exactly (`H dx = -g`, "CG run to full convergence"), a
reasonably configured Driver (positive absolute tolerance, `c_armijo ≤ ½`,
at least one outer iteration and one backtracking attempt, non-negligible
direction) started at a not-yet-converged point accepts the full Newton step
and terminates `converged` at the exact minimizer after exactly one outer
iteration; concretely, minimizing `½ xᵀ diag(1,100) x` from `(10, 10)` with
tolerances `1e-9` converges to `(0, 0)` within two outer iterations with
energies decreasing monotonically to zero. -/
theorem newton_quadratic_exactness :
    (∀ (n : ℕ) (H : Fin n → Fin n → ℚ) (b : Vec n) (cfg : Config) (x0 : Vec n),
      (∀ i j, H i j = H j i) →
      0 ≤ dot (cgDir (quadObjective H b) cfg x0 ((quadObjective H b).gradient x0))
            (mulVec H (cgDir (quadObjective H b) cfg x0 ((quadObjective H b).gradient x0))) →
      0 < cfg.abs_tolerance →
      cfg.c_armijo ≤ 1 / 2 →
      1 ≤ cfg.max_iter →
      1 ≤ cfg.max_backtracking_iter →
      ¬ convCrit cfg (normSq ((quadObjective H b).gradient x0))
          (normSq ((quadObjective H b).gradient x0)) →
      cfg.gdu_tolerance ≤ |dot ((quadObjective H b).gradient x0)
          (cgDir (quadObjective H b) cfg x0 ((quadObjective H b).gradient x0))| →
      mulVec H (cgDir (quadObjective H b) cfg x0 ((quadObjective H b).gradient x0))
          = -((quadObjective H b).gradient x0) →
      (solve (quadObjective H b) cfg x0).status = TermStatus.converged ∧
      (solve (quadObjective H b) cfg x0).iters = 1 ∧
      mulVec H ((solve (quadObjective H b) cfg x0).x) = b)
    ∧ ((solve (quadObjective Hdiag (0 : Vec 2)) cfg5 x05).status = TermStatus.converged
      ∧ (solve (quadObjective Hdiag (0 : Vec 2)) cfg5 x05).iters ≤ 2
      ∧ (∀ i, (solve (quadObjective Hdiag (0 : Vec 2)) cfg5 x05).x i = 0)
      ∧ (solve (quadObjective Hdiag (0 : Vec 2)) cfg5 x05).energies = [5050, 0]) := by
  constructor
  · intro n H b cfg x0 hsymm hpsd habs hc hmi hmbt hconv hgdu hexact
    obtain ⟨mi, hmi'⟩ : ∃ m, cfg.max_iter = m + 1 := ⟨cfg.max_iter - 1, by omega⟩
    obtain ⟨mb, hmb'⟩ : ∃ m, cfg.max_backtracking_iter = m + 1 :=
      ⟨cfg.max_backtracking_iter - 1, by omega⟩
    have hgdu0 : dot ((quadObjective H b).gradient x0)
        (cgDir (quadObjective H b) cfg x0 ((quadObjective H b).gradient x0)) ≤ 0 := by
      have hgneg : (quadObjective H b).gradient x0
          = -(mulVec H (cgDir (quadObjective H b) cfg x0
              ((quadObjective H b).gradient x0))) := by
        rw [hexact, neg_neg]
      nth_rewrite 1 [hgneg]
      rw [dot_comm, dot_neg_right]
      exact neg_nonpos.mpr hpsd
    have htest : (quadObjective H b).energy (x0 + (1 : ℚ) •
          cgDir (quadObjective H b) cfg x0 ((quadObjective H b).gradient x0))
        ≤ (quadObjective H b).energy x0 + cfg.c_armijo *
          (1 * dot ((quadObjective H b).gradient x0)
            (cgDir (quadObjective H b) cfg x0 ((quadObjective H b).gradient x0))) := by
      show quadEnergy H b (x0 + (1 : ℚ) •
          cgDir (quadObjective H b) cfg x0 ((quadObjective H b).gradient x0))
        ≤ quadEnergy H b x0 + cfg.c_armijo *
          (1 * dot ((quadObjective H b).gradient x0)
            (cgDir (quadObjective H b) cfg x0 ((quadObjective H b).gradient x0)))
      rw [one_smul]
      rw [show quadEnergy H b (x0 + cgDir (quadObjective H b) cfg x0
            ((quadObjective H b).gradient x0))
          = quadEnergy H b x0 + dot (quadGrad H b x0)
              (cgDir (quadObjective H b) cfg x0 ((quadObjective H b).gradient x0))
            + dot (cgDir (quadObjective H b) cfg x0 ((quadObjective H b).gradient x0))
                (mulVec H (cgDir (quadObjective H b) cfg x0
                  ((quadObjective H b).gradient x0))) / 2 from
        quadEnergy_add H b hsymm x0 _]
      have h2 : dot (cgDir (quadObjective H b) cfg x0 ((quadObjective H b).gradient x0))
          (mulVec H (cgDir (quadObjective H b) cfg x0 ((quadObjective H b).gradient x0)))
          = -(dot ((quadObjective H b).gradient x0)
              (cgDir (quadObjective H b) cfg x0 ((quadObjective H b).gradient x0))) := by
        rw [hexact, dot_neg_right, dot_comm]
      rw [h2]
      have h3 : 0 ≤ (cfg.c_armijo - 1 / 2) * dot ((quadObjective H b).gradient x0)
          (cgDir (quadObjective H b) cfg x0 ((quadObjective H b).gradient x0)) :=
        mul_nonneg_of_nonpos_of_nonpos (by linarith) hgdu0
      have h4 : dot (quadGrad H b x0)
          (cgDir (quadObjective H b) cfg x0 ((quadObjective H b).gradient x0))
          = dot ((quadObjective H b).gradient x0)
              (cgDir (quadObjective H b) cfg x0 ((quadObjective H b).gradient x0)) := rfl
      rw [h4]
      linarith
    have hA : armijoSearch (quadObjective H b).energy x0
        (cgDir (quadObjective H b) cfg x0 ((quadObjective H b).gradient x0))
        ((quadObjective H b).energy x0)
        (dot ((quadObjective H b).gradient x0)
          (cgDir (quadObjective H b) cfg x0 ((quadObjective H b).gradient x0)))
        cfg.c_armijo cfg.max_backtracking_iter 1
        = some (1, (quadObjective H b).energy (x0 + (1 : ℚ) •
            cgDir (quadObjective H b) cfg x0 ((quadObjective H b).gradient x0))) := by
      rw [hmb']
      exact armijoSearch_first_accept _ _ _ _ _ _ mb htest
    have hg1 : (quadObjective H b).gradient (x0 + (1 : ℚ) •
        cgDir (quadObjective H b) cfg x0 ((quadObjective H b).gradient x0)) = 0 := by
      show quadGrad H b (x0 + (1 : ℚ) •
        cgDir (quadObjective H b) cfg x0 ((quadObjective H b).gradient x0)) = 0
      rw [one_smul]
      unfold quadGrad
      rw [mulVec_add, hexact]
      show mulVec H x0 + -(mulVec H x0 - b) - b = 0
      abel
    have hcrit1 : convCrit cfg (normSq ((quadObjective H b).gradient (x0 + (1 : ℚ) •
          cgDir (quadObjective H b) cfg x0 ((quadObjective H b).gradient x0))))
        (normSq ((quadObjective H b).gradient x0)) := by
      left
      rw [hg1, normSq_zero_vec]
      positivity
    have hsolve : solve (quadObjective H b) cfg x0 =
        addRecord (normSq ((quadObjective H b).gradient x0))
          ((quadObjective H b).energy x0)
          (dot ((quadObjective H b).gradient x0)
            (cgDir (quadObjective H b) cfg x0 ((quadObjective H b).gradient x0)))
          ⟨x0 + (1 : ℚ) • cgDir (quadObjective H b) cfg x0 ((quadObjective H b).gradient x0),
            TermStatus.converged, 1, 2,
            normSq ((quadObjective H b).gradient (x0 + (1 : ℚ) •
              cgDir (quadObjective H b) cfg x0 ((quadObjective H b).gradient x0))),
            [normSq ((quadObjective H b).gradient (x0 + (1 : ℚ) •
              cgDir (quadObjective H b) cfg x0 ((quadObjective H b).gradient x0)))],
            [(quadObjective H b).energy (x0 + (1 : ℚ) •
              cgDir (quadObjective H b) cfg x0 ((quadObjective H b).gradient x0))], []⟩ := by
      unfold solve
      rw [hmi']
      rw [newtonLoop_accept (quadObjective H b) cfg
        (normSq ((quadObjective H b).gradient x0)) mi 0 x0
        ((quadObjective H b).gradient x0) 1 1
        ((quadObjective H b).energy (x0 + (1 : ℚ) •
          cgDir (quadObjective H b) cfg x0 ((quadObjective H b).gradient x0)))
        hconv (not_lt.mpr hgdu) hA]
      rw [newtonLoop_conv_entry (quadObjective H b) cfg
        (normSq ((quadObjective H b).gradient x0)) mi 1
        (x0 + (1 : ℚ) • cgDir (quadObjective H b) cfg x0 ((quadObjective H b).gradient x0))
        ((quadObjective H b).gradient (x0 + (1 : ℚ) •
          cgDir (quadObjective H b) cfg x0 ((quadObjective H b).gradient x0))) 2 hcrit1]
    rw [hsolve]
    refine ⟨rfl, rfl, ?_⟩
    have hx1 : mulVec H (x0 + (1 : ℚ) •
        cgDir (quadObjective H b) cfg x0 ((quadObjective H b).gradient x0)) - b = 0 := hg1
    exact sub_eq_zero.mp hx1
  · refine ⟨by decide, by decide, by decide, by decide⟩

/-- Witness for the hypotheses of C5 at the concrete diagonal quadratic. -/
theorem newton_quadratic_exactness_witness :
    (∀ i j, Hdiag i j = Hdiag j i)
    ∧ 0 < cfg5.abs_tolerance
    ∧ mulVec Hdiag (cgDir (quadObjective Hdiag (0 : Vec 2)) cfg5 x05
        ((quadObjective Hdiag (0 : Vec 2)).gradient x05))
        = -((quadObjective Hdiag (0 : Vec 2)).gradient x05)
    ∧ (solve (quadObjective Hdiag (0 : Vec 2)) cfg5 x05).status = TermStatus.converged
    ∧ (solve (quadObjective Hdiag (0 : Vec 2)) cfg5 x05).iters = 1
    ∧ mulVec Hdiag ((solve (quadObjective Hdiag (0 : Vec 2)) cfg5 x05).x) = (0 : Vec 2) :=
  ⟨by decide, by decide, by decide,
   (newton_quadratic_exactness.1 2 Hdiag (0 : Vec 2) cfg5 x05 (by decide) (by decide)
      (by decide) (by decide) (by decide) (by decide) (by decide) (by decide)
      (by decide)).1,
   (newton_quadratic_exactness.1 2 Hdiag (0 : Vec 2) cfg5 x05 (by decide) (by decide)
      (by decide) (by decide) (by decide) (by decide) (by decide) (by decide)
      (by decide)).2.1,
   (newton_quadratic_exactness.1 2 Hdiag (0 : Vec 2) cfg5 x05 (by decide) (by decide)
      (by decide) (by decide) (by decide) (by decide) (by decide) (by decide)
      (by decide)).2.2⟩

/-- Counterexample to claim C7 as stated: on the strictly convex quadratic
`½ xᵀ diag(1,100) x` from `(10, 1/100)` with the inner CG truncated after one
iteration, the Driver accepts one Armijo step (one recorded `gdu`) whose
energies decrease, yet the squared gradient norm grows from `101` to
`989901/400`: the gradient norm does not strictly decrease across accepted
outer iterations. -/
theorem newton_gradient_increase_cx :
    (solve (quadObjective Hdiag (0 : Vec 2)) cfg7 x07).gdus.length = 1
    ∧ (solve (quadObjective Hdiag (0 : Vec 2)) cfg7 x07).gradNorms
        = [101, 989901 / 400]
    ∧ (solve (quadObjective Hdiag (0 : Vec 2)) cfg7 x07).energies
        = [10001 / 200, 9801 / 400]
    ∧ ¬ ((989901 / 400 : ℚ) < 101) := by
  refine ⟨by decide, by decide, by decide, by decide⟩

/-- Claim C7 (amended): with a non-negative Armijo constant, the energy is
non-increasing at every accepted outer step whose directional derivative
`gdu` is non-positive (the Armijo acceptance bound guarantees it); the
gradient norm, however, need not strictly decrease across accepted outer
iterations. -/
theorem newton_energy_nonincreasing :
    ∀ (n : ℕ) (obj : Objective n) (cfg : Config) (g0sq : ℚ) (fuel k : ℕ)
      (x g : Vec n) (evals : ℕ),
    0 ≤ cfg.c_armijo →
    (∀ d ∈ (newtonLoop obj cfg g0sq fuel k x g evals).gdus, d ≤ 0) →
    List.Chain' (fun a b => b ≤ a) (newtonLoop obj cfg g0sq fuel k x g evals).energies :=
  fun _n obj cfg g0sq fuel k x g evals =>
    newtonLoop_energies_chain obj cfg g0sq fuel k x g evals

set_option maxHeartbeats 4000000 in
set_option maxRecDepth 8192 in
/-- Witness for the amended C7 on a small quadratic run with one accepted
step. -/
theorem newton_energy_nonincreasing_witness :
    0 ≤ cfgE.c_armijo
    ∧ (∀ d ∈ (newtonLoop (quadObjective H1 (0 : Vec 1)) cfgE
        (normSq ((quadObjective H1 (0 : Vec 1)).gradient x01)) 3 0 x01
        ((quadObjective H1 (0 : Vec 1)).gradient x01) 1).gdus, d ≤ 0)
    ∧ List.Chain' (fun a b => b ≤ a)
        (newtonLoop (quadObjective H1 (0 : Vec 1)) cfgE
          (normSq ((quadObjective H1 (0 : Vec 1)).gradient x01)) 3 0 x01
          ((quadObjective H1 (0 : Vec 1)).gradient x01) 1).energies := by
  have h1 : 0 ≤ cfgE.c_armijo := by decide
  have h2 : ∀ d ∈ (newtonLoop (quadObjective H1 (0 : Vec 1)) cfgE
      (normSq ((quadObjective H1 (0 : Vec 1)).gradient x01)) 3 0 x01
      ((quadObjective H1 (0 : Vec 1)).gradient x01) 1).gdus, d ≤ 0 := by decide
  exact ⟨h1, h2, newton_energy_nonincreasing 1 (quadObjective H1 (0 : Vec 1)) cfgE
     (normSq ((quadObjective H1 (0 : Vec 1)).gradient x01)) 3 0 x01
     ((quadObjective H1 (0 : Vec 1)).gradient x01) 1 h1 h2⟩

/-- Counterexample to claim C9 as stated: minimizing `½ xᵀ diag(1,4) x` from
`(1,1)` with `rel_tolerance = 1/2`, `abs_tolerance = 0` and single-iteration
truncated CG terminates `converged` after one outer iteration, but re-running
the solve from the returned terminal iterate with the identical configuration
terminates `converged` only after **two** additional outer iterations (the
relative tolerance is re-anchored at the new, much smaller initial gradient
norm). -/
theorem newton_rerun_two_iterations_cx :
    (solve (quadObjective Hd4 (0 : Vec 2)) cfg9 x09).status = TermStatus.converged
    ∧ (solve (quadObjective Hd4 (0 : Vec 2)) cfg9 x09).iters = 1
    ∧ (solve (quadObjective Hd4 (0 : Vec 2)) cfg9
        ((solve (quadObjective Hd4 (0 : Vec 2)) cfg9 x09).x)).status
        = TermStatus.converged
    ∧ (solve (quadObjective Hd4 (0 : Vec 2)) cfg9
        ((solve (quadObjective Hd4 (0 : Vec 2)) cfg9 x09).x)).iters = 2 := by
  refine ⟨by decide, by decide, by decide, by decide⟩

/-- Claim C9 (amended): when a previous solve's terminal iterate satisfies
the absolute gradient tolerance, re-running the solve from it with identical
configuration terminates `converged` with zero additional outer iterations
and the iterate unchanged; a solve converged only through the relative
tolerance may need two or more iterations on re-run. -/
theorem newton_rerun_after_abs_convergence :
    ∀ (n : ℕ) (obj : Objective n) (cfg : Config) (x0 : Vec n),
    normSq (obj.gradient ((solve obj cfg x0).x)) < cfg.abs_tolerance ^ 2 →
    solve obj cfg ((solve obj cfg x0).x) =
      ⟨(solve obj cfg x0).x, TermStatus.converged, 0, 1,
        normSq (obj.gradient ((solve obj cfg x0).x)),
        [normSq (obj.gradient ((solve obj cfg x0).x))],
        [obj.energy ((solve obj cfg x0).x)], []⟩ := by
  intro n obj cfg x0 h
  unfold solve
  exact newtonLoop_conv_entry obj cfg
    (normSq (obj.gradient ((solve obj cfg x0).x))) cfg.max_iter 0
    ((solve obj cfg x0).x) (obj.gradient ((solve obj cfg x0).x)) 1 (Or.inl h)

/-- Witness for the amended C9 at a stationary starting point. -/
theorem newton_rerun_after_abs_convergence_witness :
    normSq ((quadObjective Hd4 (0 : Vec 2)).gradient
        ((solve (quadObjective Hd4 (0 : Vec 2)) cfgW ![0, 0]).x)) < cfgW.abs_tolerance ^ 2
    ∧ solve (quadObjective Hd4 (0 : Vec 2)) cfgW
        ((solve (quadObjective Hd4 (0 : Vec 2)) cfgW ![0, 0]).x) =
      ⟨(solve (quadObjective Hd4 (0 : Vec 2)) cfgW ![0, 0]).x, TermStatus.converged, 0, 1,
        normSq ((quadObjective Hd4 (0 : Vec 2)).gradient
          ((solve (quadObjective Hd4 (0 : Vec 2)) cfgW ![0, 0]).x)),
        [normSq ((quadObjective Hd4 (0 : Vec 2)).gradient
          ((solve (quadObjective Hd4 (0 : Vec 2)) cfgW ![0, 0]).x))],
        [(quadObjective Hd4 (0 : Vec 2)).energy
          ((solve (quadObjective Hd4 (0 : Vec 2)) cfgW ![0, 0]).x)], []⟩ :=
  ⟨by decide,
   newton_rerun_after_abs_convergence 2 (quadObjective Hd4 (0 : Vec 2)) cfgW ![0, 0]
     (by decide)⟩

/-- Claim C10: for every mesh-element count `n ≥ 1` and polynomial degree
`≥ 1` (and any external quadrature data with non-negative weights),
`solveBVP` returns a pair `(err_L2, err_energy)` of non-negative reals, each
the square root of a (non-negative) integral of a squared quantity. -/
theorem solveBVP_sqrt_nonneg :
    ∀ (fem : ℕ → ℕ → QuadratureData) (n degree : ℕ),
    1 ≤ n → 1 ≤ degree →
    (∀ p ∈ (fem n degree).l2vals, 0 ≤ p.1) →
    (∀ p ∈ (fem n degree).envals, 0 ≤ p.1) →
    0 ≤ (solveBVP fem n degree).1 ∧ 0 ≤ (solveBVP fem n degree).2
    ∧ (solveBVP fem n degree).1 = Real.sqrt (assembleSq (fem n degree).l2vals)
    ∧ (solveBVP fem n degree).2 = Real.sqrt (assembleEnergySq (fem n degree).envals)
    ∧ 0 ≤ assembleSq (fem n degree).l2vals
    ∧ 0 ≤ assembleEnergySq (fem n degree).envals := by
  intro fem n degree _hn _hdeg hw1 hw2
  refine ⟨Real.sqrt_nonneg _, Real.sqrt_nonneg _, rfl, rfl, ?_, ?_⟩
  · refine List.sum_nonneg ?_
    intro v hv
    obtain ⟨p, hp, rfl⟩ := List.mem_map.mp hv
    exact mul_nonneg (hw1 p hp) (sq_nonneg _)
  · refine List.sum_nonneg ?_
    intro v hv
    obtain ⟨p, hp, rfl⟩ := List.mem_map.mp hv
    exact mul_nonneg (hw2 p hp) (add_nonneg (sq_nonneg _) (sq_nonneg _))

/-- Witness for C10 at a one-point quadrature. -/
theorem solveBVP_sqrt_nonneg_witness :
    (1 : ℕ) ≤ 1
    ∧ 0 ≤ (solveBVP (fun _ _ => ⟨[((1 : ℝ), 2)], [((1 : ℝ), 1, 1)]⟩) 1 1).1
    ∧ 0 ≤ (solveBVP (fun _ _ => ⟨[((1 : ℝ), 2)], [((1 : ℝ), 1, 1)]⟩) 1 1).2 :=
  ⟨le_refl 1,
   (solveBVP_sqrt_nonneg (fun _ _ => ⟨[((1 : ℝ), 2)], [((1 : ℝ), 1, 1)]⟩) 1 1
     (le_refl 1) (le_refl 1) (by simp) (by simp)).1,
   (solveBVP_sqrt_nonneg (fun _ _ => ⟨[((1 : ℝ), 2)], [((1 : ℝ), 1, 1)]⟩) 1 1
     (le_refl 1) (le_refl 1) (by simp) (by simp)).2.1⟩
